import Mathlib

/-!
Verification of the conversation-context engine (second half of
src/services/jira.js, the thread-aware context system).  Strings are
modelled as lists of characters, JS `Map`s as insertion-ordered
association lists, `Date.now()` as an explicit `now : Nat` argument,
and JS signed number arithmetic on timestamps as `Int` where the sign
matters.
-/

namespace ContextEngine

/-- Strings are modelled as lists of characters. -/
abbrev Str := List Char

/-- Convert a Lean string literal into the character-list model. -/
def str (s : String) : Str := s.data

/-! ### JS `Map` model: insertion-ordered association list.
`Map.get` finds the first (unique) binding, `Map.set` replaces an
existing binding in place or appends a new one, `Map.delete` removes
the binding. -/

/-- JS `Map.prototype.get`. -/
def mapGet {K V : Type} [DecidableEq K] (m : List (K × V)) (k : K) : Option V :=
  (m.find? (fun e => e.1 = k)).map (·.2)

/-- JS `Map.prototype.set`: replace in place if present, else append. -/
def mapSet {K V : Type} [DecidableEq K] (m : List (K × V)) (k : K) (v : V) : List (K × V) :=
  match m with
  | [] => [(k, v)]
  | e :: rest => if e.1 = k then (k, v) :: rest else e :: mapSet rest k v

/-- JS `Map.prototype.delete`. -/
def mapDelete {K V : Type} [DecidableEq K] (m : List (K × V)) (k : K) : List (K × V) :=
  m.filter (fun e => ¬ e.1 = k)

/-- Keys of a map in insertion order. -/
def mapKeys {K V : Type} (m : List (K × V)) : List K := m.map Prod.fst

/-! ### JS string helpers -/

/-- The JS `\s` class, restricted to the ASCII whitespace characters that can
occur in this code base's inputs. -/
def isJsWs (c : Char) : Bool :=
  c = ' ' ∨ c = '\t' ∨ c = '\n' ∨ c = '\r' ∨ c = '\x0b' ∨ c = '\x0c'

/-- The JS `\w` class. -/
def isJsWord (c : Char) : Bool :=
  ('a' ≤ c ∧ c ≤ 'z') ∨ ('A' ≤ c ∧ c ≤ 'Z') ∨ ('0' ≤ c ∧ c ≤ '9') ∨ c = '_'

/-- JS `String.prototype.toLowerCase` (ASCII range). -/
def jsToLower (s : Str) : Str := s.map Char.toLower

/-- JS `String.prototype.trim`. -/
def jsTrim (s : Str) : Str :=
  ((s.dropWhile isJsWs).reverse.dropWhile isJsWs).reverse

/-- The apostrophe character (U+0027). -/
def apos : Char := Char.ofNat 39

/-- Render a `Nat` the way JS template interpolation renders a number. -/
def natToStr (n : Nat) : Str := (Nat.repr n).data

/-! ### A small backtracking regex engine.
The source's heuristics are JS regular expressions.  The engine below
implements exactly the features those patterns use: case-insensitive
literals (every pattern carries the `i` flag or is case-independent),
`.` (any char except a line terminator), `\s`, `\w`, `$`, ordered
alternation, greedy and lazy `+`, greedy `*`, and a single capturing
group.  `String.prototype.match` without the `g` flag returns the
leftmost match, with alternatives tried left to right — `reSearch`
below scans start positions left to right and backtracks at each.
Fuel bounds the recursion depth; every pattern in this file matches
well within `reFuel` on every input considered. -/

inductive RE where
  | eps
  | lit (c : Char)
  | dot
  | ws
  | wchar
  | eos
  | seq (a b : RE)
  | alt (a b : RE)
  | plusG (r : RE)
  | plusL (r : RE)
  | starG (r : RE)
  | grp (r : RE)
deriving Repr

/-- Sequence a list of case-insensitive literal characters. -/
def reLits : Str → RE
  | [] => RE.eps
  | c :: cs => RE.seq (RE.lit c) (reLits cs)

/-- Ordered alternation of a list of regexes (left to right, as in JS). -/
def reAlts : List RE → RE
  | [] => RE.eps
  | [r] => r
  | r :: rs => RE.alt r (reAlts rs)

/-- One step of the backtracking matcher.  `cap` is the value of the single
capturing group so far, `k` the continuation receiving the remaining input
and the capture; `none` signals failure and triggers backtracking in the
caller.  The result is `some cap` on overall success. -/
def reM : Nat → RE → Str → Option Str → (Str → Option Str → Option (Option Str)) →
    Option (Option Str)
  | 0, _, _, _, _ => none
  | fuel + 1, r, s, cap, k =>
    match r with
    | .eps => k s cap
    | .lit c =>
      match s with
      | [] => none
      | d :: rest => if d.toLower = c.toLower then k rest cap else none
    | .dot =>
      match s with
      | [] => none
      | d :: rest => if d = '\n' ∨ d = '\r' then none else k rest cap
    | .ws =>
      match s with
      | [] => none
      | d :: rest => if isJsWs d then k rest cap else none
    | .wchar =>
      match s with
      | [] => none
      | d :: rest => if isJsWord d then k rest cap else none
    | .eos =>
      match s with
      | [] => k s cap
      | _ :: _ => none
    | .seq a b => reM fuel a s cap (fun s1 c1 => reM fuel b s1 c1 k)
    | .alt a b =>
      match reM fuel a s cap k with
      | some v => some v
      | none => reM fuel b s cap k
    | .plusG r1 =>
      reM fuel r1 s cap (fun s1 c1 =>
        match reM fuel (.plusG r1) s1 c1 k with
        | some v => some v
        | none => k s1 c1)
    | .plusL r1 =>
      reM fuel r1 s cap (fun s1 c1 =>
        match k s1 c1 with
        | some v => some v
        | none => reM fuel (.plusL r1) s1 c1 k)
    | .starG r1 =>
      match reM fuel r1 s cap (fun s1 c1 => reM fuel (.starG r1) s1 c1 k) with
      | some v => some v
      | none => k s cap
    | .grp r1 =>
      reM fuel r1 s cap (fun s1 _ => k s1 (some (s.take (s.length - s1.length))))

/-- Fuel used for every match in this file. -/
def reFuel : Nat := 1000

/-- Leftmost match, as `String.prototype.match` without `g`: returns
`some capture` when the regex matches anywhere, scanning start positions
left to right. -/
def reSearch (r : RE) (s : Str) : Option (Option Str) :=
  match reM reFuel r s none (fun _ c => some c) with
  | some c => some c
  | none =>
    match s with
    | [] => none
    | _ :: rest => reSearch r rest

/-- `RegExp.prototype.test` for an unanchored pattern. -/
def reTest (r : RE) (s : Str) : Bool := (reSearch r s).isSome

/-- `RegExp.prototype.test` for a pattern anchored with a leading `^`. -/
def reTestAnchored (r : RE) (s : Str) : Bool :=
  (reM reFuel r s none (fun _ c => some c)).isSome

/-! ### Thread model (section 1 of the source).
`Thread.addMessage(messageId, content, username, timestamp)` pushes the
message, assigns `lastActivityAt = timestamp`, and then tests
`Date.now() - this.lastActivityAt > 30 * 60 * 1000` — note that the test
reads the field value that was just overwritten. -/

structure Msg where
  id : Str
  content : Str
  username : Str
  timestamp : Nat
  attentionScore : Option Int
deriving DecidableEq, Repr

structure Thread where
  id : Str
  channelId : Str
  topic : Option Str
  messages : List Msg
  entities : List Str
  taskCreated : Bool
  taskId : Option Str
  startedAt : Nat
  lastActivityAt : Nat
  isActive : Bool
deriving DecidableEq, Repr

/-- The `Thread` constructor; `now` stands for `Date.now()`. -/
def Thread.init (id channelId : Str) (topic : Option Str) (now : Nat) : Thread :=
  { id := id, channelId := channelId, topic := topic, messages := [],
    entities := [], taskCreated := false, taskId := none,
    startedAt := now, lastActivityAt := now, isActive := true }

/-- `Thread.addMessage`, translated statement by statement: the push, the
`lastActivityAt` assignment, then the inactivity test, which — exactly as in
the source — reads `lastActivityAt` after it has been set to `timestamp`. -/
def Thread.addMessage (t : Thread) (messageId content username : Str)
    (timestamp now : Nat) : Thread :=
  let t1 : Thread :=
    { t with
      messages := t.messages ++ [⟨messageId, content, username, timestamp, none⟩],
      lastActivityAt := timestamp }
  if t1.isActive ∧ (30 * 60 * 1000 : Int) < (now : Int) - (t1.lastActivityAt : Int) then
    { t1 with isActive := false }
  else t1

/-- `Thread.linkTask`. -/
def Thread.linkTask (t : Thread) (taskId : Str) : Thread :=
  { t with taskCreated := true, taskId := some taskId }

/-! ### Entity resolution (section 2 of the source) -/

inductive EKind where
  | person
  | task
  | feature
  | concept
deriving DecidableEq, Repr

/-- One focus-stack element: the source stores `{type, name, title?}` plus the
`timestamp` added by `pushToFocusStack`. -/
structure FocusEntry where
  type : EKind
  name : Str
  title : Option Str
  timestamp : Nat
deriving DecidableEq, Repr

/-- The entity argument passed to `pushToFocusStack` (before the timestamp is
spread in). -/
structure FocusCand where
  type : EKind
  name : Str
  title : Option Str
deriving DecidableEq, Repr

structure PersonData where
  mentions : Nat
  lastMention : Option Nat
  github : Option Str
deriving DecidableEq, Repr

structure TaskData where
  mentions : Nat
  taskId : Option Str
  status : Option Str
deriving DecidableEq, Repr

structure FeatureData where
  mentions : Nat
  relatedTasks : List Str
deriving DecidableEq, Repr

structure ConceptData where
  mentions : Nat
  context : Option Str
deriving DecidableEq, Repr

structure EntityMap where
  channelId : Str
  people : List (Str × PersonData)
  tasks : List (Str × TaskData)
  features : List (Str × FeatureData)
  concepts : List (Str × ConceptData)
  focusStack : List FocusEntry
  lastUpdated : Nat
deriving DecidableEq, Repr

/-- The `EntityMap` constructor. -/
def EntityMap.init (channelId : Str) (now : Nat) : EntityMap :=
  { channelId := channelId, people := [], tasks := [], features := [],
    concepts := [], focusStack := [], lastUpdated := now }

/-- JS `a || b` on a string-or-null value: the empty string is falsy. -/
def jsOrStrOpt (a b : Option Str) : Option Str :=
  match a with
  | some s => if s = [] then b else some s
  | none => b

/-- Model of `EntityMap.pushToFocusStack`: drop every stack element with the
same `(type, name)`, unshift the new entry stamped with `Date.now()`, then
truncate to the first 10 when the length exceeds 10. -/
def pushToFocusStack (stack : List FocusEntry) (entity : FocusCand) (now : Nat) :
    List FocusEntry :=
  let filtered := stack.filter (fun e => ¬ (e.type = entity.type ∧ e.name = entity.name))
  let stack1 : List FocusEntry :=
    { type := entity.type, name := entity.name, title := entity.title, timestamp := now }
      :: filtered
  if 10 < stack1.length then stack1.take 10 else stack1

/-- Model of `EntityMap.addPerson`: normalize (lower-case, strip `@`), bump the
mention counter, keep an earlier github login when none is supplied, and push
the person onto the focus stack. -/
def EntityMap.addPerson (m : EntityMap) (name : Str) (githubUsername : Option Str)
    (now : Nat) : EntityMap :=
  let normalized := (jsToLower name).filter (fun c => ¬ c = '@')
  let existing := (mapGet m.people normalized).getD
    { mentions := 0, lastMention := none, github := none }
  let updated : PersonData :=
    { mentions := existing.mentions + 1, lastMention := some now,
      github := jsOrStrOpt githubUsername existing.github }
  let m1 := { m with people := mapSet m.people normalized updated }
  let cand : FocusCand := { type := EKind.person, name := normalized, title := none }
  { m1 with focusStack := pushToFocusStack m1.focusStack cand now }

/-- Model of `EntityMap.addTask`: normalize (lower-case, first 50 chars), bump
the counter, keep an earlier task id when none is supplied, overwrite the
status, and push the task (with its raw title) onto the focus stack. -/
def EntityMap.addTask (m : EntityMap) (title : Str) (taskId : Option Str)
    (status : Str) (now : Nat) : EntityMap :=
  let normalized := (jsToLower title).take 50
  let existing := (mapGet m.tasks normalized).getD
    { mentions := 0, taskId := none, status := none }
  let updated : TaskData :=
    { mentions := existing.mentions + 1, taskId := jsOrStrOpt taskId existing.taskId,
      status := some status }
  let m1 := { m with tasks := mapSet m.tasks normalized updated }
  let cand : FocusCand := { type := EKind.task, name := normalized, title := some title }
  { m1 with focusStack := pushToFocusStack m1.focusStack cand now }

/-- Model of `EntityMap.addFeature`: no normalization; bump the counter and push
the feature onto the focus stack. -/
def EntityMap.addFeature (m : EntityMap) (name : Str) (now : Nat) : EntityMap :=
  let existing := (mapGet m.features name).getD { mentions := 0, relatedTasks := [] }
  let updated : FeatureData :=
    { mentions := existing.mentions + 1, relatedTasks := existing.relatedTasks }
  let m1 := { m with features := mapSet m.features name updated }
  let cand : FocusCand := { type := EKind.feature, name := name, title := none }
  { m1 with focusStack := pushToFocusStack m1.focusStack cand now }

/-- Target kinds of the source's `pronounMap`. -/
inductive RefKind where
  | person
  | taskOrFeature
  | task
  | feature
deriving DecidableEq, Repr

/-- The source's fixed `pronounMap` object. -/
def pronounMap (w : Str) : Option RefKind :=
  if w = str "he" then some RefKind.person
  else if w = str "she" then some RefKind.person
  else if w = str "they" then some RefKind.person
  else if w = str "it" then some RefKind.taskOrFeature
  else if w = str "that" then some RefKind.taskOrFeature
  else if w = str "this" then some RefKind.taskOrFeature
  else if w = str "the issue" then some RefKind.task
  else if w = str "the bug" then some RefKind.task
  else if w = str "the task" then some RefKind.task
  else if w = str "the feature" then some RefKind.feature
  else none

/-- The focus-stack predicate used by `resolveReference` for a target kind. -/
def refMatches (t : RefKind) (e : FocusEntry) : Bool :=
  match t with
  | RefKind.person => decide (e.type = EKind.person)
  | RefKind.taskOrFeature => decide (e.type = EKind.task ∨ e.type = EKind.feature)
  | RefKind.task => decide (e.type = EKind.task)
  | RefKind.feature => decide (e.type = EKind.feature)

/-- Model of `EntityMap.resolveReference`: lower-case the reference word, map it
to a target kind, then return the first focus-stack entry of that kind
(the stack is most-recent-first), or null. -/
def EntityMap.resolveReference (m : EntityMap) (reference : Str) : Option FocusEntry :=
  let lowerRef := jsToLower reference
  match pronounMap lowerRef with
  | none => none
  | some t => m.focusStack.find? (refMatches t)

/-- Model of `EntityMap.getCurrentFocus`. -/
def EntityMap.getCurrentFocus (m : EntityMap) : List FocusEntry :=
  m.focusStack.take 3

/-! ### Decision tracking (section 3 of the source) -/

structure Decision where
  id : Str
  channelId : Str
  threadId : Option Str
  what : Option Str
  why : Option Str
  who : Option Str
  whenAt : Nat
  alternatives : List Str
  relatedTaskId : Option Str
  confidence : Option Str
deriving DecidableEq, Repr

/-- The `Decision` constructor (`whenAt` models the source's `when` field). -/
def Decision.init (channelId : Str) (threadId : Option Str) (now : Nat) : Decision :=
  { id := channelId ++ str "-decision-" ++ natToStr now,
    channelId := channelId, threadId := threadId,
    what := none, why := none, who := none, whenAt := now,
    alternatives := [], relatedTaskId := none, confidence := none }

/-- The word "let's" (with a literal apostrophe). -/
def letsWord : Str := str "let" ++ [apos] ++ str "s"

/-- The word "we'll" (with a literal apostrophe). -/
def weLlWord : Str := str "we" ++ [apos] ++ str "ll"

/-- Decision pattern 1 of the source, the regex
(?:let's|we should|we'll|we will|I think we should|decided to)\s+(.+) with
flag i. -/
def decisionPat1 : RE :=
  RE.seq (reAlts [reLits letsWord, reLits (str "we should"), reLits weLlWord,
      reLits (str "we will"), reLits (str "i think we should"),
      reLits (str "decided to")])
    (RE.seq (RE.plusG RE.ws) (RE.grp (RE.plusG RE.dot)))

/-- Decision pattern 2 of the source, the regex
(?:going with|choosing|selected|picked)\s+(.+?)(?:\s+because|\s+over|\s*,|\s*$)
with flag i. -/
def decisionPat2 : RE :=
  RE.seq (reAlts [reLits (str "going with"), reLits (str "choosing"),
      reLits (str "selected"), reLits (str "picked")])
    (RE.seq (RE.plusG RE.ws)
      (RE.seq (RE.grp (RE.plusL RE.dot))
        (reAlts [RE.seq (RE.plusG RE.ws) (reLits (str "because")),
          RE.seq (RE.plusG RE.ws) (reLits (str "over")),
          RE.seq (RE.starG RE.ws) (RE.lit ','),
          RE.seq (RE.starG RE.ws) RE.eos])))

/-- Decision pattern 3 of the source, the regex
(?:the plan is|plan is to)\s+(.+) with flag i. -/
def decisionPat3 : RE :=
  RE.seq (reAlts [reLits (str "the plan is"), reLits (str "plan is to")])
    (RE.seq (RE.plusG RE.ws) (RE.grp (RE.plusG RE.dot)))

/-- The ordered `decisionPatterns` array of the source. -/
def decisionPatterns : List RE := [decisionPat1, decisionPat2, decisionPat3]

/-- The source's "why" regex, because\s+(.+?)(?:\.|,|$) with flag i. -/
def whyPat : RE :=
  RE.seq (reLits (str "because"))
    (RE.seq (RE.plusG RE.ws)
      (RE.seq (RE.grp (RE.plusL RE.dot))
        (reAlts [RE.lit '.', RE.lit ',', RE.eos])))

/-- The source's alternatives regex, instead of\s+(.+?)(?:\.|,|$) with flag i. -/
def altPat : RE :=
  RE.seq (reLits (str "instead of"))
    (RE.seq (RE.plusG RE.ws)
      (RE.seq (RE.grp (RE.plusL RE.dot))
        (reAlts [RE.lit '.', RE.lit ',', RE.eos])))

/-- Core of `extractDecision`: try the three decision patterns in order; on the
first match build a `Decision` whose `what` is the trimmed first capture and
whose `who` is the author, then run the secondary because / instead-of
extractions.  `activeThreadId` models `getActiveThread(channelId)?.id`. -/
def extractDecisionCore (activeThreadId : Option Str)
    (content username channelId : Str) (now : Nat) : Option Decision :=
  match decisionPatterns.findSome? (fun p => reSearch p content) with
  | none => none
  | some cap =>
    let d0 := Decision.init channelId activeThreadId now
    let d1 := { d0 with what := some (jsTrim (cap.getD [])), who := some username }
    let d2 :=
      match reSearch whyPat content with
      | some wcap => { d1 with why := some (jsTrim (wcap.getD [])) }
      | none => d1
    let d3 :=
      match reSearch altPat content with
      | some acap => { d2 with alternatives := d2.alternatives ++ [jsTrim (acap.getD [])] }
      | none => d2
    some d3

/-! ### Task-origin linking (section 5 of the source) -/

structure OriginMsg where
  content : Str
  username : Str
  timestamp : Nat
deriving DecidableEq, Repr

structure TaskOrigin where
  taskId : Str
  channelId : Str
  threadId : Str
  messages : List OriginMsg
  entities : List Str
  decision : Option Decision
  createdAt : Nat
  updatedAt : Nat
deriving DecidableEq, Repr

/-- The `TaskOrigin` constructor. -/
def TaskOrigin.init (taskId channelId threadId : Str) (now : Nat) : TaskOrigin :=
  { taskId := taskId, channelId := channelId, threadId := threadId,
    messages := [], entities := [], decision := none,
    createdAt := now, updatedAt := now }

/-- Model of `TaskOrigin.addMessage`. -/
def TaskOrigin.addMessage (o : TaskOrigin) (content username : Str)
    (timestamp now : Nat) : TaskOrigin :=
  { o with messages := o.messages ++ [⟨content, username, timestamp⟩], updatedAt := now }

/-- Input messages handed to `linkTaskToOrigin`; the source evaluates
`m.timestamp || Date.now()`, so a zero timestamp (falsy in JS) is replaced
with the current time. -/
structure OriginMsgIn where
  content : Str
  username : Str
  timestamp : Nat
deriving DecidableEq, Repr

/-- The `TaskOrigin` that `linkTaskToOrigin(taskId, channelId, threadId,
messages)` constructs before storing it: a fresh origin with every supplied
message appended (`m.timestamp || Date.now()`). -/
def buildOrigin (taskId channelId threadId : Str) (messages : List OriginMsgIn)
    (now : Nat) : TaskOrigin :=
  messages.foldl
    (fun o m => o.addMessage m.content m.username
      (if m.timestamp = 0 then now else m.timestamp) now)
    (TaskOrigin.init taskId channelId threadId now)

/-! ### Cross-channel project memory (section 6 of the source) -/

structure ChannelInfo where
  name : Str
  purpose : Option Str
  registeredAt : Nat
deriving DecidableEq, Repr

structure SharedEntity where
  channels : List Str
  mentions : Nat
deriving DecidableEq, Repr

structure ActiveTask where
  channelId : Str
  status : Option Str
  addedAt : Nat
  updatedAt : Option Nat
deriving DecidableEq, Repr

structure ProjectMemory where
  projectName : Str
  channels : List (Str × ChannelInfo)
  sharedEntities : List (Str × SharedEntity)
  crossChannelDecisions : List Decision
  activeTasks : List (Str × ActiveTask)
  lastSynced : Nat
deriving DecidableEq, Repr

/-- The `ProjectMemory` constructor. -/
def ProjectMemory.init (projectName : Str) (now : Nat) : ProjectMemory :=
  { projectName := projectName, channels := [], sharedEntities := [],
    crossChannelDecisions := [], activeTasks := [], lastSynced := now }

/-- Model of `ProjectMemory.registerChannel`: `Map.set`, so re-registration
overwrites in place; the display name falls back to the channel id
(`name || channelId`). -/
def ProjectMemory.registerChannel (p : ProjectMemory) (channelId : Str)
    (name purpose : Option Str) (now : Nat) : ProjectMemory :=
  let info : ChannelInfo :=
    { name := (jsOrStrOpt name (some channelId)).getD channelId,
      purpose := purpose, registeredAt := now }
  { p with channels := mapSet p.channels channelId info }

/-- Model of `ProjectMemory.addCrossChannelEntity`: union the contributing
channel into the JS `Set` (insertion-ordered, duplicates ignored) and bump the
mention counter. -/
def ProjectMemory.addCrossChannelEntity (p : ProjectMemory) (entity : Str)
    (channelId : Str) : ProjectMemory :=
  let existing := (mapGet p.sharedEntities entity).getD { channels := [], mentions := 0 }
  let chans := if channelId ∈ existing.channels then existing.channels
    else existing.channels ++ [channelId]
  let updated : SharedEntity := { channels := chans, mentions := existing.mentions + 1 }
  { p with sharedEntities := mapSet p.sharedEntities entity updated }

/-- Model of `ProjectMemory.addTask`. -/
def ProjectMemory.addTask (p : ProjectMemory) (taskId channelId : Str)
    (status : Option Str) (now : Nat) : ProjectMemory :=
  let t : ActiveTask :=
    { channelId := channelId, status := status, addedAt := now, updatedAt := none }
  { p with activeTasks := mapSet p.activeTasks taskId t }

/-- Model of `ProjectMemory.getTaskDistribution`: per-channel task counts,
accumulated into a JS object in iteration order. -/
def ProjectMemory.getTaskDistribution (p : ProjectMemory) : List (Str × Nat) :=
  p.activeTasks.foldl
    (fun acc e =>
      match mapGet acc e.2.channelId with
      | some n => mapSet acc e.2.channelId (n + 1)
      | none => acc ++ [(e.2.channelId, 1)])
    []

/-- One element of `getTrendingEntities`. -/
structure TrendingEntity where
  entity : Str
  mentions : Nat
  channels : Nat
deriving DecidableEq, Repr

/-- Model of `ProjectMemory.getTrendingEntities`: stable sort by mention count
descending, first `limit`, projected to entity / mentions / channel count. -/
def ProjectMemory.getTrendingEntities (p : ProjectMemory) (limit : Nat) :
    List TrendingEntity :=
  ((p.sharedEntities.mergeSort (fun a b => b.2.mentions ≤ a.2.mentions)).take limit).map
    (fun e => { entity := e.1, mentions := e.2.mentions, channels := e.2.channels.length })

/-! ### Confidence trail (section 7 of the source) -/

/-- The `result` object stored on a confidence entry
(`{ isActionable, confidence, title }`). -/
structure ExtractionResult where
  isActionable : Option Bool
  confidence : Option Str
  title : Option Str
deriving DecidableEq, Repr

/-- The boolean/numeric feature set of `ConfidenceEntry.extractPatterns`. -/
structure MsgPatterns where
  length : Nat
  hasHedging : Bool
  hasUrgency : Bool
  hasAssignee : Bool
  hasDeadline : Bool
  isQuestion : Bool
  firstWord : Option Str
  wordCount : Nat
deriving DecidableEq, Repr

structure ConfidenceEntry where
  id : Str
  timestamp : Nat
  message : Str
  result : ExtractionResult
  action : Option Str
  outcome : Option Str
  correction : Option Str
  patterns : MsgPatterns
deriving DecidableEq, Repr

/-- Model of `recordConfidence`: push the freshly constructed entry onto the
module-level trail and, when the length exceeds 1000, `shift()` the oldest
entry off.  The entry itself is taken as an argument: its construction
(`conf-$Date.now-$Math.random` id, regex-derived features) is never inspected
by the eviction logic under verification. -/
def recordConfidence (trail : List ConfidenceEntry) (entry : ConfidenceEntry) :
    List ConfidenceEntry :=
  let t := trail ++ [entry]
  if 1000 < t.length then t.drop 1 else t

/-! ### Attention scoring (section 8 of the source) -/

/-- The optional `context` argument of `calculateAttentionScore`. -/
structure ScoreContext where
  inReplyTo : Bool
  previousMentionedSameTopic : Bool
deriving DecidableEq, Repr

structure AttentionReason where
  reason : Str
  points : Int
  type : Str
deriving DecidableEq, Repr

structure AttentionResult where
  score : Int
  level : Str
  reasons : List AttentionReason
deriving DecidableEq, Repr

/-- One `{pattern, points, reason}` scoring rule; `anchoredStart` records
whether the source regex begins with `^`. -/
structure ScoreRule where
  pattern : RE
  anchoredStart : Bool
  points : Int
  reason : Str

/-- Run a rule's `pattern.test(content)`. -/
def ScoreRule.run (rule : ScoreRule) (s : Str) : Bool :=
  if rule.anchoredStart then reTestAnchored rule.pattern s else reTest rule.pattern s

/-- The source's `highValuePatterns` array, regex by regex:
(?:bug|issue|broken|crash|error|fail)/i, (?:urgent|asap|critical|blocking|production)/i,
(?:need\s+to|have\s+to|must|should|todo)/i, @(\w+),
(?:implement|build|create|fix|add)/i, (?:deadline|by\s+\w+|before\s+\w+)/i,
(?:customer|user|client|revenue)/i. -/
def highValuePatterns : List ScoreRule :=
  [⟨reAlts [reLits (str "bug"), reLits (str "issue"), reLits (str "broken"),
      reLits (str "crash"), reLits (str "error"), reLits (str "fail")],
    false, 30, str "Bug/issue mention"⟩,
   ⟨reAlts [reLits (str "urgent"), reLits (str "asap"), reLits (str "critical"),
      reLits (str "blocking"), reLits (str "production")],
    false, 25, str "Urgency indicator"⟩,
   ⟨reAlts [RE.seq (reLits (str "need")) (RE.seq (RE.plusG RE.ws) (reLits (str "to"))),
      RE.seq (reLits (str "have")) (RE.seq (RE.plusG RE.ws) (reLits (str "to"))),
      reLits (str "must"), reLits (str "should"), reLits (str "todo")],
    false, 20, str "Task language"⟩,
   ⟨RE.seq (RE.lit '@') (RE.grp (RE.plusG RE.wchar)),
    false, 15, str "Direct mention"⟩,
   ⟨reAlts [reLits (str "implement"), reLits (str "build"), reLits (str "create"),
      reLits (str "fix"), reLits (str "add")],
    false, 15, str "Action verb"⟩,
   ⟨reAlts [reLits (str "deadline"),
      RE.seq (reLits (str "by")) (RE.seq (RE.plusG RE.ws) (RE.plusG RE.wchar)),
      RE.seq (reLits (str "before")) (RE.seq (RE.plusG RE.ws) (RE.plusG RE.wchar))],
    false, 10, str "Time constraint"⟩,
   ⟨reAlts [reLits (str "customer"), reLits (str "user"), reLits (str "client"),
      reLits (str "revenue")],
    false, 15, str "Business impact"⟩]

/-- The source's `lowValuePatterns` array, regex by regex:
^(?:ok|okay|cool|nice|got it|thanks|ty|lol|ha)/i, ^(?:hey|hi|hello|yo|sup)/i,
^\s*$, (?:lol|lmao|haha|hehe)/i. -/
def lowValuePatterns : List ScoreRule :=
  [⟨reAlts [reLits (str "ok"), reLits (str "okay"), reLits (str "cool"),
      reLits (str "nice"), reLits (str "got it"), reLits (str "thanks"),
      reLits (str "ty"), reLits (str "lol"), reLits (str "ha")],
    true, -20, str "Low-info response"⟩,
   ⟨reAlts [reLits (str "hey"), reLits (str "hi"), reLits (str "hello"),
      reLits (str "yo"), reLits (str "sup")],
    true, -15, str "Greeting"⟩,
   ⟨RE.seq (RE.starG RE.ws) RE.eos, true, -30, str "Empty message"⟩,
   ⟨reAlts [reLits (str "lol"), reLits (str "lmao"), reLits (str "haha"),
      reLits (str "hehe")],
    false, -10, str "Casual response"⟩]

/-- Model of `calculateAttentionScore`: additive regex rules, context bonuses,
clamp to [0, 100], then the high / medium / low level thresholds. -/
def calculateAttentionScore (content : Str) (ctx : ScoreContext) : AttentionResult :=
  let step : (Int × List AttentionReason) → Str → ScoreRule → (Int × List AttentionReason) :=
    fun acc ty rule =>
      if rule.run content then
        (acc.1 + rule.points, acc.2 ++ [⟨rule.reason, rule.points, ty⟩])
      else acc
  let acc1 := highValuePatterns.foldl (fun a r => step a (str "positive") r) (0, [])
  let acc2 := lowValuePatterns.foldl (fun a r => step a (str "negative") r) acc1
  let acc3 :=
    if ctx.inReplyTo then
      (acc2.1 + 5, acc2.2 ++ [⟨str "Reply message", 5, str "context"⟩])
    else acc2
  let acc4 :=
    if ctx.previousMentionedSameTopic then
      (acc3.1 + 10, acc3.2 ++ [⟨str "Continuing topic", 10, str "context"⟩])
    else acc3
  let score := max 0 (min 100 acc4.1)
  { score := score,
    level := if 70 ≤ score then str "high"
      else if 40 ≤ score then str "medium" else str "low",
    reasons := acc4.2 }

/-- The message object handed to `scoreAndCacheMessage`. -/
structure MsgIn where
  content : Str
  username : Str
  timestamp : Nat
deriving DecidableEq, Repr

/-- A cached `{...message, attention}` record. -/
structure ScoredMessage where
  content : Str
  username : Str
  timestamp : Nat
  attention : AttentionResult
deriving DecidableEq, Repr

/-- Score a message the way `scoreAndCacheMessage` does: no context object is
passed, and `message.content || message` coerces an object with empty content
to the string "[object Object]". -/
def scoreMessage (m : MsgIn) : ScoredMessage :=
  let effective := if m.content = [] then str "[object Object]" else m.content
  { content := m.content, username := m.username, timestamp := m.timestamp,
    attention := calculateAttentionScore effective ⟨false, false⟩ }

/-- Model of `scoreAndCacheMessage`: ensure the channel's cache array exists,
push the scored message, and `shift()` when the length exceeds 100. -/
def scoreAndCacheMessage (cacheMap : List (Str × List ScoredMessage))
    (channelId : Str) (m : MsgIn) : List (Str × List ScoredMessage) :=
  let m1 := if (mapGet cacheMap channelId).isSome then cacheMap
    else mapSet cacheMap channelId []
  let cache := (mapGet m1 channelId).getD []
  let cache1 := cache ++ [scoreMessage m]
  let cache2 := if 100 < cache1.length then cache1.drop 1 else cache1
  mapSet m1 channelId cache2

/-! ### Module-level state and the operations that read or mutate it.
The source keeps seven module-level containers; the record below carries
them all, so that state-reading and state-mutating functions can be
translated with explicit state passing. -/

structure EngineState where
  threads : List (Str × List Thread)
  entityMaps : List (Str × EntityMap)
  decisions : List (Str × List Decision)
  taskOrigins : List (Str × TaskOrigin)
  projectMemory : List (Str × ProjectMemory)
  confidenceTrail : List ConfidenceEntry
  attentionCache : List (Str × List ScoredMessage)
deriving DecidableEq, Repr

/-- The initial module state: every container empty. -/
def EngineState.initial : EngineState :=
  { threads := [], entityMaps := [], decisions := [], taskOrigins := [],
    projectMemory := [], confidenceTrail := [], attentionCache := [] }

/-- Model of `getActiveThread`: first active thread of the channel, else null. -/
def getActiveThread (threads : List (Str × List Thread)) (channelId : Str) :
    Option Thread :=
  ((mapGet threads channelId).getD []).find? (fun t => t.isActive)

/-- Model of `getThreadByTaskId`: walk every channel's thread list in map
insertion order and return the first thread whose `taskId` is strictly equal
to the argument (`null === null` holds, hence `Option` equality). -/
def getThreadByTaskId (threads : List (Str × List Thread)) (taskId : Option Str) :
    Option Thread :=
  match threads with
  | [] => none
  | (_, chThreads) :: rest =>
    match chThreads.find? (fun t => t.taskId = taskId) with
    | some t => some t
    | none => getThreadByTaskId rest taskId

/-- Model of `recordDecision`: ensure the channel's decision array exists and
push the decision. -/
def recordDecision (dm : List (Str × List Decision)) (channelId : Str)
    (d : Decision) : List (Str × List Decision) :=
  let dm1 := if (mapGet dm channelId).isSome then dm else mapSet dm channelId []
  mapSet dm1 channelId (((mapGet dm1 channelId).getD []) ++ [d])

/-- Model of `extractDecision(content, username, channelId)`: run the pattern
cascade of `extractDecisionCore` against the channel's active thread and, on a
match, record the decision in the per-channel log. -/
def extractDecision (s : EngineState) (content username channelId : Str)
    (now : Nat) : Option Decision × EngineState :=
  match extractDecisionCore ((getActiveThread s.threads channelId).map (·.id))
      content username channelId now with
  | some d => (some d, { s with decisions := recordDecision s.decisions channelId d })
  | none => (none, s)

/-! ### Temporal patterns (section 4 of the source) -/

/-- JS `Math.round` on the non-negative values that reach it here:
round half toward positive infinity. -/
def jsRound (x : ℚ) : Int := ⌊x + 1 / 2⌋

structure StaleAlert where
  task : Str
  hoursSinceActivity : Int
  lastMentionedBy : Option Str
deriving DecidableEq, Repr

structure TemporalPatterns where
  recurringTopics : List (Str × Nat)
  urgencyTrends : List Unit
  stalenessAlerts : List StaleAlert
  deadlineWarnings : List Unit
deriving DecidableEq, Repr

/-- The staleness check performed for one `(taskName, data)` entry of the
channel's task map: for status "mentioned" or "in_progress", look the carrying
thread up by task id; when the fractional hours since its `lastActivityAt`
exceed 24, emit the alert with the hours rounded and the last message's
author. -/
def staleAlertFor (threads : List (Str × List Thread)) (now : Nat)
    (e : Str × TaskData) : Option StaleAlert :=
  if e.2.status = some (str "mentioned") ∨ e.2.status = some (str "in_progress") then
    match getThreadByTaskId threads e.2.taskId with
    | some thread =>
      let hoursSinceActivity : ℚ :=
        ((now : ℚ) - (thread.lastActivityAt : ℚ)) / (1000 * 60 * 60)
      if 24 < hoursSinceActivity then
        some { task := e.1, hoursSinceActivity := jsRound hoursSinceActivity,
               lastMentionedBy := (thread.messages.getLast?).map (·.username) }
      else none
    | none => none
  else none

/-- Model of `analyzeTemporalPatterns(channelId)`: recurring topics are topics
of the channel's threads seen at least twice (object-key insertion order), and
staleness alerts are produced per task-map entry by `staleAlertFor`.  The
source's `getEntityMap` inserts a fresh empty map when the channel has none;
the default below returns the same (empty) result in that case.
`urgencyTrends` and `deadlineWarnings` are initialized and never filled. -/
def analyzeTemporalPatterns (s : EngineState) (channelId : Str) (now : Nat) :
    TemporalPatterns :=
  let channelThreads := (mapGet s.threads channelId).getD []
  let topicCounts := channelThreads.foldl
    (fun acc t =>
      match t.topic with
      | some topic =>
        match mapGet acc topic with
        | some n => mapSet acc topic (n + 1)
        | none => acc ++ [(topic, 1)]
      | none => acc)
    ([] : List (Str × Nat))
  let em := (mapGet s.entityMaps channelId).getD (EntityMap.init channelId now)
  { recurringTopics := topicCounts.filter (fun e => 2 ≤ e.2),
    urgencyTrends := [],
    stalenessAlerts := em.tasks.filterMap (staleAlertFor s.threads now),
    deadlineWarnings := [] }

/-! ### State-level task-origin linking -/

/-- Replace the first list element satisfying `p` (the aliased in-place
mutation of a found JS object). -/
def updateFirst {α : Type} (p : α → Bool) (f : α → α) : List α → List α
  | [] => []
  | x :: xs => if p x then f x :: xs else x :: updateFirst p f xs

/-- Apply `f` to the first thread satisfying `p` across all channels, in map
insertion order. -/
def updateFirstThreadGlobal (threads : List (Str × List Thread)) (p : Thread → Bool)
    (f : Thread → Thread) : List (Str × List Thread) :=
  match threads with
  | [] => []
  | (ch, ts) :: rest =>
    if ts.any p then (ch, updateFirst p f ts) :: rest
    else (ch, ts) :: updateFirstThreadGlobal rest p f

/-- Model of `linkTaskToOrigin(taskId, channelId, threadId, messages)`: build
the origin, store it under `taskId` (overwriting any previous origin), and
link the thread found by task id — or, failing that, the channel's active
thread — by setting `taskCreated` and `taskId` on it. -/
def linkTaskToOrigin (s : EngineState) (taskId channelId threadId : Str)
    (messages : List OriginMsgIn) (now : Nat) : TaskOrigin × EngineState :=
  let origin := buildOrigin taskId channelId threadId messages now
  let origins1 := mapSet s.taskOrigins taskId origin
  let threads1 :=
    if (getThreadByTaskId s.threads (some taskId)).isSome then
      updateFirstThreadGlobal s.threads (fun t => t.taskId = some taskId)
        (fun t => t.linkTask taskId)
    else
      match getActiveThread s.threads channelId with
      | some _ =>
        mapSet s.threads channelId
          (updateFirst (fun t => t.isActive) (fun t => t.linkTask taskId)
            ((mapGet s.threads channelId).getD []))
      | none => s.threads
  (origin, { s with taskOrigins := origins1, threads := threads1 })

/-- Model of `getTaskOrigin`. -/
def getTaskOrigin (s : EngineState) (taskId : Str) : Option TaskOrigin :=
  mapGet s.taskOrigins taskId

/-! ### State-level cross-channel memory -/

/-- Model of `getProjectMemory`: return the existing project record or create,
store and return a fresh one. -/
def getProjectMemory (pm : List (Str × ProjectMemory)) (projectName : Str)
    (now : Nat) : ProjectMemory × List (Str × ProjectMemory) :=
  match mapGet pm projectName with
  | some p => (p, pm)
  | none =>
    let p := ProjectMemory.init projectName now
    (p, pm ++ [(projectName, p)])

/-- The `entityMap.people.forEach` body of `syncChannelToProject`. -/
def syncPersonStep (channelId : Str) (p : ProjectMemory) (e : Str × PersonData) :
    ProjectMemory :=
  p.addCrossChannelEntity (str "person:" ++ e.1) channelId

/-- The `entityMap.tasks.forEach` body of `syncChannelToProject`: share the
task entity; additionally, a truthy `data.taskId` is added to `activeTasks`. -/
def syncTaskStep (channelId : Str) (now : Nat) (p : ProjectMemory)
    (e : Str × TaskData) : ProjectMemory :=
  let p1 := p.addCrossChannelEntity (str "task:" ++ e.1) channelId
  match e.2.taskId with
  | some tid => if tid = [] then p1 else p1.addTask tid channelId e.2.status now
  | none => p1

/-- The `entityMap.features.forEach` body of `syncChannelToProject`. -/
def syncFeatureStep (channelId : Str) (p : ProjectMemory) (e : Str × FeatureData) :
    ProjectMemory :=
  p.addCrossChannelEntity (str "feature:" ++ e.1) channelId

/-- Model of `syncChannelToProject(projectName, channelId, entityMap)`:
register the channel, fold every person / task / feature entity of the
channel's entity map into the shared-entity table (tasks with a truthy task id
are also added to `activeTasks`), and stamp `lastSynced`. -/
def syncChannelToProject (pm : List (Str × ProjectMemory))
    (projectName channelId : Str) (em : EntityMap) (now : Nat) :
    List (Str × ProjectMemory) :=
  let got := getProjectMemory pm projectName now
  let p1 := got.1.registerChannel channelId none none now
  let p2 := em.people.foldl (syncPersonStep channelId) p1
  let p3 := em.tasks.foldl (syncTaskStep channelId now) p2
  let p4 := em.features.foldl (syncFeatureStep channelId) p3
  mapSet got.2 projectName { p4 with lastSynced := now }

/-- The result record of `getCrossChannelContext`. -/
structure CrossChannelContext where
  channels : List (Str × ChannelInfo)
  trendingEntities : List TrendingEntity
  taskDistribution : List (Str × Nat)
  totalTasks : Nat
deriving DecidableEq, Repr

/-- Model of `getCrossChannelContext(projectName)`; `getProjectMemory` creates
an empty project when none exists, so the read never fails. -/
def getCrossChannelContext (pm : List (Str × ProjectMemory)) (projectName : Str)
    (now : Nat) : CrossChannelContext :=
  let p := (getProjectMemory pm projectName now).1
  { channels := p.channels,
    trendingEntities := p.getTrendingEntities 5,
    taskDistribution := p.getTaskDistribution,
    totalTasks := p.activeTasks.length }

/-! ### Utilities -/

/-- Model of `clearChannelContext(channelId)`: delete the channel's entry from
the four per-channel containers; nothing else is touched. -/
def clearChannelContext (s : EngineState) (channelId : Str) : EngineState :=
  { s with
    threads := mapDelete s.threads channelId,
    entityMaps := mapDelete s.entityMaps channelId,
    decisions := mapDelete s.decisions channelId,
    attentionCache := mapDelete s.attentionCache channelId }

/-! ### Operation sequences used by the invariant claims -/

/-- One mutating entity-resolver call (the operations quantified over by the
focus-stack claim). -/
inductive EntityOp where
  | person (name : Str) (githubUsername : Option Str) (now : Nat)
  | task (title : Str) (taskId : Option Str) (status : Str) (now : Nat)
  | feature (name : Str) (now : Nat)
deriving DecidableEq, Repr

/-- Apply one entity-resolver call. -/
def applyEntityOp (m : EntityMap) : EntityOp → EntityMap
  | EntityOp.person name gh now => m.addPerson name gh now
  | EntityOp.task title tid status now => m.addTask title tid status now
  | EntityOp.feature name now => m.addFeature name now

/-- Apply a sequence of entity-resolver calls, oldest first. -/
def applyEntityOps (m : EntityMap) (ops : List EntityOp) : EntityMap :=
  ops.foldl applyEntityOp m

/-- The `(type, name)` focus key that an operation pushes, mirroring the
`pushToFocusStack` argument each `add*` builds. -/
def EntityOp.focusKey : EntityOp → EKind × Str
  | EntityOp.person name _ _ => (EKind.person, (jsToLower name).filter (fun c => ¬ c = '@'))
  | EntityOp.task title _ _ _ => (EKind.task, (jsToLower title).take 50)
  | EntityOp.feature name _ => (EKind.feature, name)

/-- One `syncChannelToProject` call. -/
structure SyncOp where
  projectName : Str
  channelId : Str
  em : EntityMap
  now : Nat
deriving DecidableEq, Repr

/-- Apply a sequence of `syncChannelToProject` calls, oldest first. -/
def applySyncOps (pm : List (Str × ProjectMemory)) (ops : List SyncOp) :
    List (Str × ProjectMemory) :=
  ops.foldl (fun acc op => syncChannelToProject acc op.projectName op.channelId op.em op.now) pm

/-- The cache array a channel currently holds (empty when the channel has no
entry yet, matching the `|| []` reads in the source). -/
def cacheOf (cacheMap : List (Str × List ScoredMessage)) (channelId : Str) :
    List ScoredMessage :=
  (mapGet cacheMap channelId).getD []

/-- The probe message of the decision-extraction claim:
"Let's go with plan B because it's faster" (apostrophes spelled out). -/
def c2Content : Str :=
  str "Let" ++ [apos] ++ str "s go with plan B because it" ++ [apos] ++ str "s faster"

/-- The capture the code actually produces for `what` on `c2Content`:
"go with plan B because it's faster". -/
def c2WhatActual : Str :=
  str "go with plan B because it" ++ [apos] ++ str "s faster"

/-- The `why` capture on `c2Content`: "it's faster". -/
def c2Why : Str := str "it" ++ [apos] ++ str "s faster"

/-! ## Theorems -/

theorem mapGet_set_self {K V : Type} [DecidableEq K] (m : List (K × V)) (k : K) (v : V) :
    mapGet (mapSet m k v) k = some v := by
  induction m with
  | nil => simp [mapGet, mapSet, List.find?]
  | cons e rest ih =>
    by_cases h : e.1 = k
    · simp [mapGet, mapSet, h, List.find?]
    · simpa [mapGet, mapSet, h, List.find?] using ih

theorem mapGet_set_ne {K V : Type} [DecidableEq K] (m : List (K × V)) (k k' : K) (v : V)
    (h : k' ≠ k) : mapGet (mapSet m k v) k' = mapGet m k' := by
  induction m with
  | nil => simp [mapGet, mapSet, List.find?, Ne.symm h]
  | cons e rest ih =>
    by_cases he : e.1 = k
    · subst he
      simp [mapGet, mapSet, List.find?, Ne.symm h, h]
    · by_cases he' : e.1 = k'
      · simp [mapGet, mapSet, he, he', List.find?, h]
      · simpa [mapGet, mapSet, he, he', List.find?] using ih

theorem mapGet_delete_self {K V : Type} [DecidableEq K] (m : List (K × V)) (k : K) :
    mapGet (mapDelete m k) k = none := by
  induction m with
  | nil => simp [mapGet, mapDelete]
  | cons e rest ih =>
    by_cases h : e.1 = k
    · simp [mapGet, mapDelete, h, List.find?]
    · simp [mapGet, mapDelete, h, List.find?]

theorem mapGet_delete_ne {K V : Type} [DecidableEq K] (m : List (K × V)) (k k' : K)
    (h : k' ≠ k) : mapGet (mapDelete m k) k' = mapGet m k' := by
  induction m with
  | nil => simp [mapGet, mapDelete]
  | cons e rest ih =>
    by_cases he : e.1 = k
    · subst he
      simpa [mapGet, mapDelete, List.find?, Ne.symm h] using ih
    · by_cases he' : e.1 = k'
      · simp [mapGet, mapDelete, he, he', List.find?, h]
      · simpa [mapGet, mapDelete, he, he', List.find?] using ih

theorem mapKeys_set {K V : Type} [DecidableEq K] (m : List (K × V)) (k : K) (v : V) :
    mapKeys (mapSet m k v) = if k ∈ mapKeys m then mapKeys m else mapKeys m ++ [k] := by
  induction m with
  | nil => simp [mapKeys, mapSet]
  | cons e rest ih =>
    by_cases h : e.1 = k
    · simp [mapKeys, mapSet, h]
    · have hke : ¬ (k = e.1) := fun hh => h hh.symm
      simp only [mapKeys, mapSet, List.map_cons] at ih ⊢
      rw [if_neg h, List.map_cons, ih]
      by_cases hk : k ∈ List.map Prod.fst rest <;>
        simp [hk, hke, List.mem_cons]

theorem mapKeys_set_nodup {K V : Type} [DecidableEq K] (m : List (K × V)) (k : K) (v : V)
    (h : (mapKeys m).Nodup) : (mapKeys (mapSet m k v)).Nodup := by
  rw [mapKeys_set]
  by_cases hk : k ∈ mapKeys m
  · simpa [hk] using h
  · simpa [hk, List.nodup_append] using h

/-- Claim C1 (code bug evaluation): a thread created at time 0 (so its
`lastActivityAt` is 0) receives a message three hours later with
`timestamp = Date.now() = 10800000`.  The gap to the previous
`lastActivityAt` is far beyond 30 minutes, so the claim demands
`isActive = false` after the append; the code leaves the thread active,
because it overwrites `lastActivityAt` with the new timestamp before
performing the 30-minute comparison. -/
theorem c1_thread_autoclose_bug :
    ((Thread.init (str "c-0") (str "c") none 0).addMessage
        (str "m2") (str "hello") (str "bob") 10800000 10800000).isActive = true := by
  decide

/-- Claim C6 (counterexample): `lastActivityAt` is assigned the
caller-supplied timestamp unconditionally, so appending with a smaller
timestamp strictly decreases it.  A thread created at time 1000 receives
a message with timestamp 5: `lastActivityAt` drops from 1000 to 5. -/
theorem c6_lastActivity_decreases :
    ((Thread.init (str "c-0") (str "c") none 1000).addMessage
        (str "m2") (str "x") (str "bob") 5 5).lastActivityAt
      < (Thread.init (str "c-0") (str "c") none 1000).lastActivityAt := by
  decide

/-- Claim C6 (amended): `addMessage` sets `lastActivityAt` to the supplied
timestamp, so the field is non-decreasing exactly when every append carries a
timestamp at least as large as the thread's current `lastActivityAt` — which
the default `Date.now()` call path guarantees under a monotone clock. -/
theorem c6_lastActivity_monotone (t : Thread) (messageId content username : Str)
    (timestamp now : Nat) (h : t.lastActivityAt ≤ timestamp) :
    t.lastActivityAt ≤ (t.addMessage messageId content username timestamp now).lastActivityAt := by
  unfold Thread.addMessage
  dsimp only
  split <;> simpa using h

/-- Claim C2 (counterexample): on "Let's go with plan B because it's faster"
by "alice", the claim demands `what = "go with plan B"`; the first decision
pattern's greedy `(.+)` in fact captures everything after "Let's ", including
the because-clause, so `what` differs from the claimed value. -/
theorem c2_what_counterexample :
    ¬ ((extractDecision EngineState.initial c2Content (str "alice") (str "chan") 0).1.map
        Decision.what = some (some (str "go with plan B"))) := by
  decide

/-- Claim C2 (amended): for every channel id and clock value, extracting from
"Let's go with plan B because it's faster" by "alice" yields a decision with
`what = "go with plan B because it's faster"` (the greedy capture keeps the
trailing because-clause), `why = "it's faster"`, and `who = "alice"`. -/
theorem c2_extractDecision_values (channelId : Str) (now : Nat) :
    (extractDecision EngineState.initial c2Content (str "alice") channelId now).1.map
        Decision.what = some (some c2WhatActual)
    ∧ (extractDecision EngineState.initial c2Content (str "alice") channelId now).1.map
        Decision.why = some (some c2Why)
    ∧ (extractDecision EngineState.initial c2Content (str "alice") channelId now).1.map
        Decision.who = some (some (str "alice")) :=
  ⟨rfl, rfl, rfl⟩

/-- Witness for C6's amended theorem at a concrete input. -/
theorem c6_lastActivity_monotone_witness :
    (Thread.init (str "c-0") (str "c") none 1000).lastActivityAt ≤
      ((Thread.init (str "c-0") (str "c") none 1000).addMessage
        (str "m2") (str "x") (str "bob") 2000 2000).lastActivityAt :=
  c6_lastActivity_monotone (Thread.init (str "c-0") (str "c") none 1000)
    (str "m2") (str "x") (str "bob") 2000 2000 (by decide)

theorem length_filter_lt_of_mem {α : Type} (p : α → Bool) (l : List α) (x : α)
    (hx : x ∈ l) (hpx : ¬ p x) : (l.filter p).length < l.length := by
  induction l with
  | nil => cases hx
  | cons a rest ih =>
    rcases List.mem_cons.mp hx with rfl | hmem
    · rw [List.filter_cons, if_neg (by simpa using hpx)]
      have := List.length_filter_le p rest
      simp only [List.length_cons]
      omega
    · rw [List.filter_cons]
      by_cases hpa : p a = true
      · rw [if_pos hpa]
        have := ih hmem
        simp only [List.length_cons, List.length_cons]
        omega
      · rw [if_neg hpa]
        have := ih hmem
        simp only [List.length_cons]
        omega

theorem pushToFocusStack_length_le (s : List FocusEntry) (ent : FocusCand) (now : Nat) :
    (pushToFocusStack s ent now).length ≤ 10 := by
  unfold pushToFocusStack
  dsimp only
  split
  · exact le_trans (Nat.le_of_eq (List.length_take _ _)) (Nat.min_le_left _ _)
  · omega

theorem pushToFocusStack_head (s : List FocusEntry) (ent : FocusCand) (now : Nat) :
    (pushToFocusStack s ent now).head? =
      some { type := ent.type, name := ent.name, title := ent.title, timestamp := now } := by
  unfold pushToFocusStack
  dsimp only
  split
  · rfl
  · rfl

theorem pushToFocusStack_countP (s : List FocusEntry) (ent : FocusCand) (now : Nat) :
    (pushToFocusStack s ent now).countP
      (fun e => decide (e.type = ent.type ∧ e.name = ent.name)) = 1 := by
  have hl : ∀ a ∈ s.filter (fun e => ¬ (e.type = ent.type ∧ e.name = ent.name)),
      ¬ (a.type = ent.type ∧ a.name = ent.name) := by
    intro a ha
    have := List.of_mem_filter ha
    simp at this
    tauto
  have hzero : ∀ (l : List FocusEntry),
      (∀ a ∈ l, ¬ (a.type = ent.type ∧ a.name = ent.name)) →
      l.countP (fun e => decide (e.type = ent.type ∧ e.name = ent.name)) = 0 := by
    intro l hall
    rw [List.countP_eq_zero]
    intro a ha
    simpa using hall a ha
  unfold pushToFocusStack
  dsimp only
  split
  · rw [show (10 : Nat) = 9 + 1 from rfl, List.take_succ_cons, List.countP_cons]
    rw [hzero _ (fun a ha => hl a (List.mem_of_mem_take ha))]
    simp
  · rw [List.countP_cons, hzero _ hl]
    simp

theorem pushToFocusStack_length_of_mem (s : List FocusEntry) (ent : FocusCand) (now : Nat)
    (h : ∃ e ∈ s, e.type = ent.type ∧ e.name = ent.name) :
    (pushToFocusStack s ent now).length ≤ s.length := by
  obtain ⟨e, he, hkey⟩ := h
  have hlt : (s.filter (fun e => ¬ (e.type = ent.type ∧ e.name = ent.name))).length
      < s.length := by
    apply length_filter_lt_of_mem _ _ e he
    simp [hkey.1, hkey.2]
  unfold pushToFocusStack
  dsimp only
  split
  · exact le_trans (le_trans (Nat.le_of_eq (List.length_take _ _))
      (Nat.min_le_right _ _)) (by simpa using hlt)
  · simpa using hlt

theorem applyEntityOp_focusStack (m : EntityMap) (op : EntityOp) :
    ∃ title now, (applyEntityOp m op).focusStack =
      pushToFocusStack m.focusStack
        { type := op.focusKey.1, name := op.focusKey.2, title := title } now := by
  cases op with
  | person name gh now =>
    exact ⟨none, now, rfl⟩
  | task title tid status now =>
    exact ⟨some title, now, rfl⟩
  | feature name now =>
    exact ⟨none, now, rfl⟩

/-- Claim C3: for every channel and every sequence of
`addPerson` / `addTask` / `addFeature` calls, the focus stack never exceeds
length 10; and an operation whose `(type, name)` key is already present in the
stack moves that key to index 0, leaves exactly one entry with the key, and
does not grow the stack. -/
theorem c3_focusStack_invariant :
    (∀ (channelId : Str) (now0 : Nat) (ops : List EntityOp),
        (applyEntityOps (EntityMap.init channelId now0) ops).focusStack.length ≤ 10)
    ∧ (∀ (m : EntityMap) (op : EntityOp),
        (∃ e ∈ m.focusStack, (e.type, e.name) = op.focusKey) →
        ((applyEntityOp m op).focusStack.head?.map (fun e => (e.type, e.name))
            = some op.focusKey
          ∧ (applyEntityOp m op).focusStack.countP
              (fun e => decide ((e.type, e.name) = op.focusKey)) = 1
          ∧ (applyEntityOp m op).focusStack.length ≤ m.focusStack.length)) := by
  constructor
  · intro channelId now0 ops
    have key : ∀ (l : List EntityOp) (m : EntityMap), m.focusStack.length ≤ 10 →
        (applyEntityOps m l).focusStack.length ≤ 10 := by
      intro l
      induction l with
      | nil => intro m hm; simpa [applyEntityOps] using hm
      | cons op rest ih =>
        intro m _
        have step : (applyEntityOp m op).focusStack.length ≤ 10 := by
          obtain ⟨title, now, heq⟩ := applyEntityOp_focusStack m op
          rw [heq]
          exact pushToFocusStack_length_le _ _ _
        simpa [applyEntityOps, List.foldl_cons] using ih (applyEntityOp m op) step
    exact key ops (EntityMap.init channelId now0) (by simp [EntityMap.init])
  · intro m op hmem
    obtain ⟨title, now, heq⟩ := applyEntityOp_focusStack m op
    have hmem' : ∃ e ∈ m.focusStack, e.type = op.focusKey.1 ∧ e.name = op.focusKey.2 := by
      obtain ⟨e, he, hk⟩ := hmem
      exact ⟨e, he, by rw [← hk], by rw [← hk]⟩
    refine ⟨?_, ?_, ?_⟩
    · rw [heq, pushToFocusStack_head]
      rfl
    · rw [heq]
      have := pushToFocusStack_countP m.focusStack
        { type := op.focusKey.1, name := op.focusKey.2, title := title } now
      rw [← this]
      apply List.countP_congr
      intro e _
      constructor
      · intro h
        have h' : (e.type, e.name) = op.focusKey := of_decide_eq_true h
        exact decide_eq_true (by
          exact ⟨congrArg Prod.fst h', congrArg Prod.snd h'⟩)
      · intro h
        have h' : e.type = op.focusKey.1 ∧ e.name = op.focusKey.2 := of_decide_eq_true h
        exact decide_eq_true (Prod.ext h'.1 h'.2)
    · rw [heq]
      exact pushToFocusStack_length_of_mem _ _ _ hmem'

/-- Witness for C3 at concrete inputs: a three-operation history stays within
the bound, and re-adding a person already on a two-entry stack keeps the stack
at two entries with the person's key in front, exactly once. -/
theorem c3_focusStack_invariant_witness :
    ((applyEntityOps (EntityMap.init (str "c") 0)
        [EntityOp.person (str "Bob") none 1,
         EntityOp.task (str "Fix login") none (str "mentioned") 2,
         EntityOp.person (str "Bob") none 3]).focusStack.length ≤ 10)
    ∧ ((applyEntityOp
          (applyEntityOps (EntityMap.init (str "c") 0)
            [EntityOp.person (str "Bob") none 1,
             EntityOp.task (str "Fix login") none (str "mentioned") 2])
          (EntityOp.person (str "Bob") none 3)).focusStack.length ≤
        (applyEntityOps (EntityMap.init (str "c") 0)
            [EntityOp.person (str "Bob") none 1,
             EntityOp.task (str "Fix login") none (str "mentioned") 2]).focusStack.length) :=
  ⟨c3_focusStack_invariant.1 (str "c") 0 _,
   (c3_focusStack_invariant.2
      (applyEntityOps (EntityMap.init (str "c") 0)
        [EntityOp.person (str "Bob") none 1,
         EntityOp.task (str "Fix login") none (str "mentioned") 2])
      (EntityOp.person (str "Bob") none 3)
      (by decide)).2.2⟩

theorem find?_append_of_first {α : Type} (p : α → Bool) (pre : List α) (e : α)
    (rest : List α) (hpre : ∀ x ∈ pre, ¬ p x) (he : p e) :
    (pre ++ e :: rest).find? p = some e := by
  induction pre with
  | nil => simp [List.find?_cons, he]
  | cons x xs ih =>
    have hx : ¬ p x := hpre x (by simp)
    rw [List.cons_append, List.find?_cons]
    simp only [Bool.not_eq_true] at hx
    rw [hx]
    exact ih (fun y hy => hpre y (by simp [hy]))

/-- Claim C7: `resolveReference("it")` maps "it" to the task-or-feature kind
and returns the first focus-stack entry (most-recent-first order) whose type
is task or feature; when the stack holds no such entry it returns null. -/
theorem c7_resolveReference_it (m : EntityMap) :
    (∀ (pre : List FocusEntry) (e : FocusEntry) (rest : List FocusEntry),
        m.focusStack = pre ++ e :: rest →
        (∀ x ∈ pre, ¬ (x.type = EKind.task ∨ x.type = EKind.feature)) →
        (e.type = EKind.task ∨ e.type = EKind.feature) →
        m.resolveReference (str "it") = some e)
    ∧ ((∀ x ∈ m.focusStack, ¬ (x.type = EKind.task ∨ x.type = EKind.feature)) →
        m.resolveReference (str "it") = none) := by
  have hres : m.resolveReference (str "it") =
      m.focusStack.find? (refMatches RefKind.taskOrFeature) := rfl
  constructor
  · intro pre e rest hsplit hpre he
    rw [hres, hsplit]
    apply find?_append_of_first
    · intro x hx
      simpa [refMatches] using hpre x hx
    · simpa [refMatches] using he
  · intro hall
    rw [hres, List.find?_eq_none]
    intro x hx
    simpa [refMatches] using hall x hx

/-- Witness for C7 at concrete inputs: on the stack
[person bob, feature Dark Mode, task login], "it" resolves to the feature
entry (the most recent task-or-feature); on a stack holding only a person,
"it" resolves to null. -/
theorem c7_resolveReference_it_witness :
    (EntityMap.resolveReference
        { channelId := str "c", people := [], tasks := [], features := [],
          concepts := [], lastUpdated := 0,
          focusStack :=
            [⟨EKind.person, str "bob", none, 3⟩,
             ⟨EKind.feature, str "Dark Mode", none, 2⟩,
             ⟨EKind.task, str "login", none, 1⟩] }
        (str "it") = some ⟨EKind.feature, str "Dark Mode", none, 2⟩)
    ∧ (EntityMap.resolveReference
        { channelId := str "c", people := [], tasks := [], features := [],
          concepts := [], lastUpdated := 0,
          focusStack := [⟨EKind.person, str "bob", none, 3⟩] }
        (str "it") = none) :=
  ⟨(c7_resolveReference_it _).1
      [⟨EKind.person, str "bob", none, 3⟩]
      ⟨EKind.feature, str "Dark Mode", none, 2⟩
      [⟨EKind.task, str "login", none, 1⟩]
      rfl (by decide) (by decide),
   (c7_resolveReference_it _).2 (by decide)⟩

theorem recordConfidence_length_le (trail : List ConfidenceEntry) (e : ConfidenceEntry)
    (h : trail.length ≤ 1000) : (recordConfidence trail e).length ≤ 1000 := by
  unfold recordConfidence
  dsimp only
  split
  · simp
    omega
  · simp at *
    omega

theorem cacheOf_scoreAndCache_self (m : List (Str × List ScoredMessage))
    (ch : Str) (msg : MsgIn) :
    cacheOf (scoreAndCacheMessage m ch msg) ch =
      (if 100 < (cacheOf m ch).length + 1
        then (cacheOf m ch ++ [scoreMessage msg]).drop 1
        else cacheOf m ch ++ [scoreMessage msg]) := by
  unfold scoreAndCacheMessage cacheOf
  dsimp only
  cases hget : mapGet m ch with
  | none =>
    simp only [hget, Option.isSome_none, Bool.false_eq_true, if_false,
      mapGet_set_self, Option.getD_some, Option.getD_none]
    simp
  | some c =>
    simp only [hget, Option.isSome_some, if_true, Option.getD_some,
      mapGet_set_self]
    simp

theorem cacheOf_scoreAndCache_ne (m : List (Str × List ScoredMessage))
    (ch other : Str) (msg : MsgIn) (h : other ≠ ch) :
    cacheOf (scoreAndCacheMessage m ch msg) other = cacheOf m other := by
  unfold scoreAndCacheMessage cacheOf
  dsimp only
  cases hget : mapGet m ch with
  | none =>
    simp only [hget, Option.isSome_none, Bool.false_eq_true, if_false]
    rw [mapGet_set_ne _ _ _ _ h, mapGet_set_ne _ _ _ _ h]
  | some c =>
    simp only [hget, Option.isSome_some, if_true]
    rw [mapGet_set_ne _ _ _ _ h]

theorem cacheOf_scoreAndCache_le (m : List (Str × List ScoredMessage))
    (ch ch' : Str) (msg : MsgIn) (h : ∀ c, (cacheOf m c).length ≤ 100) :
    (cacheOf (scoreAndCacheMessage m ch msg) ch').length ≤ 100 := by
  by_cases hc : ch' = ch
  · subst hc
    rw [cacheOf_scoreAndCache_self]
    have hh := h ch'
    split
    · simp only [List.length_drop, List.length_append, List.length_singleton]
      omega
    · simp only [List.length_append, List.length_singleton]
      omega
  · rw [cacheOf_scoreAndCache_ne _ _ _ _ hc]
    exact h ch'

/-- Claim C4: the confidence trail, grown from the initially empty module
array by any sequence of `recordConfidence` calls, never exceeds 1000 entries,
and a call on a 1000-entry trail shifts the oldest entry off while appending
the new one; likewise any sequence of `scoreAndCacheMessage` calls keeps every
channel's attention cache at 100 entries or fewer, and a call on a full
100-entry channel cache drops the oldest cached message. -/
theorem c4_bounded_buffers :
    (∀ (entries : List ConfidenceEntry),
        (entries.foldl recordConfidence []).length ≤ 1000)
    ∧ (∀ (trail : List ConfidenceEntry) (e : ConfidenceEntry),
        trail.length = 1000 → recordConfidence trail e = trail.drop 1 ++ [e])
    ∧ (∀ (ops : List (Str × MsgIn)) (ch : Str),
        (cacheOf (ops.foldl (fun acc o => scoreAndCacheMessage acc o.1 o.2) []) ch).length
          ≤ 100)
    ∧ (∀ (m : List (Str × List ScoredMessage)) (ch : Str) (msg : MsgIn),
        (cacheOf m ch).length = 100 →
        cacheOf (scoreAndCacheMessage m ch msg) ch =
          (cacheOf m ch).drop 1 ++ [scoreMessage msg]) := by
  refine ⟨?_, ?_, ?_, ?_⟩
  · intro entries
    have key : ∀ (l : List ConfidenceEntry) (t : List ConfidenceEntry),
        t.length ≤ 1000 → (l.foldl recordConfidence t).length ≤ 1000 := by
      intro l
      induction l with
      | nil => intro t ht; simpa using ht
      | cons e rest ih =>
        intro t ht
        simpa [List.foldl_cons] using ih _ (recordConfidence_length_le t e ht)
    exact key entries [] (by simp)
  · intro trail e h
    unfold recordConfidence
    dsimp only
    rw [if_pos (by simp [h])]
    rw [List.drop_append_of_le_length (by omega)]
  · intro ops ch
    have key : ∀ (l : List (Str × MsgIn)) (m : List (Str × List ScoredMessage)),
        (∀ c, (cacheOf m c).length ≤ 100) →
        ∀ c, (cacheOf (l.foldl (fun acc o => scoreAndCacheMessage acc o.1 o.2) m) c).length
          ≤ 100 := by
      intro l
      induction l with
      | nil => intro m hm c; simpa using hm c
      | cons o rest ih =>
        intro m hm c
        simpa [List.foldl_cons] using
          ih (scoreAndCacheMessage m o.1 o.2)
            (fun c' => cacheOf_scoreAndCache_le m o.1 c' o.2 hm) c
    exact key ops [] (fun c => by simp [cacheOf, mapGet]) ch
  · intro m ch msg h
    rw [cacheOf_scoreAndCache_self, if_pos (by omega),
      List.drop_append_of_le_length (by omega)]

/-- Witness for C4 at concrete inputs: a full 1000-entry trail evicts its
oldest entry on the next `recordConfidence`, and a full 100-entry channel
cache evicts its oldest scored message on the next `scoreAndCacheMessage`. -/
theorem c4_bounded_buffers_witness :
    (recordConfidence
        (List.replicate 1000
          ⟨str "e", 0, str "m", ⟨none, none, none⟩, none, none, none,
            ⟨1, false, false, false, false, false, none, 1⟩⟩)
        ⟨str "f", 1, str "m2", ⟨none, none, none⟩, none, none, none,
          ⟨2, false, false, false, false, false, none, 1⟩⟩ =
      (List.replicate 1000
          (⟨str "e", 0, str "m", ⟨none, none, none⟩, none, none, none,
            ⟨1, false, false, false, false, false, none, 1⟩⟩ : ConfidenceEntry)).drop 1
        ++ [⟨str "f", 1, str "m2", ⟨none, none, none⟩, none, none, none,
          ⟨2, false, false, false, false, false, none, 1⟩⟩])
    ∧ (cacheOf
        (scoreAndCacheMessage
          [(str "c", List.replicate 100 (scoreMessage ⟨str "hello", str "bob", 0⟩))]
          (str "c") ⟨str "hi", str "eve", 1⟩)
        (str "c") =
      (List.replicate 100 (scoreMessage ⟨str "hello", str "bob", 0⟩)).drop 1
        ++ [scoreMessage ⟨str "hi", str "eve", 1⟩]) :=
  ⟨c4_bounded_buffers.2.1 _ _ (by rw [List.length_replicate]),
   c4_bounded_buffers.2.2.2
      [(str "c", List.replicate 100 (scoreMessage ⟨str "hello", str "bob", 0⟩))]
      (str "c") ⟨str "hi", str "eve", 1⟩
      (by
        rw [show cacheOf
            [(str "c", List.replicate 100 (scoreMessage ⟨str "hello", str "bob", 0⟩))]
            (str "c") = List.replicate 100 (scoreMessage ⟨str "hello", str "bob", 0⟩)
          from rfl]
        simp)⟩

/-- Claim C8: calling `linkTaskToOrigin` twice with the same `taskId`
overwrites the prior record — looking the task up afterwards returns the
`TaskOrigin` built solely from the second call's arguments — and the
origin store keeps at most one binding per task id. -/
theorem c8_linkTask_last_write_wins (s : EngineState)
    (taskId ch1 th1 ch2 th2 : Str) (msgs1 msgs2 : List OriginMsgIn)
    (now1 now2 : Nat) :
    getTaskOrigin
        (linkTaskToOrigin (linkTaskToOrigin s taskId ch1 th1 msgs1 now1).2
          taskId ch2 th2 msgs2 now2).2 taskId
      = some (buildOrigin taskId ch2 th2 msgs2 now2)
    ∧ ((mapKeys s.taskOrigins).Nodup →
        (mapKeys (linkTaskToOrigin (linkTaskToOrigin s taskId ch1 th1 msgs1 now1).2
          taskId ch2 th2 msgs2 now2).2.taskOrigins).Nodup) := by
  constructor
  · show mapGet (mapSet _ taskId (buildOrigin taskId ch2 th2 msgs2 now2)) taskId = _
    exact mapGet_set_self _ _ _
  · intro h
    show (mapKeys (mapSet (mapSet s.taskOrigins taskId _) taskId _)).Nodup
    exact mapKeys_set_nodup _ _ _ (mapKeys_set_nodup _ _ _ h)

/-- Witness for C8 at concrete inputs: two links of task "T1" from the empty
module state; the lookup returns the origin of the second call, and the key
set stays duplicate-free. -/
theorem c8_linkTask_last_write_wins_witness :
    getTaskOrigin
        (linkTaskToOrigin
          (linkTaskToOrigin EngineState.initial (str "T1") (str "a") (str "a-1")
            [⟨str "first", str "bob", 5⟩] 10).2
          (str "T1") (str "b") (str "b-9") [⟨str "second", str "eve", 7⟩] 20).2
        (str "T1")
      = some (buildOrigin (str "T1") (str "b") (str "b-9")
          [⟨str "second", str "eve", 7⟩] 20)
    ∧ (mapKeys (linkTaskToOrigin
          (linkTaskToOrigin EngineState.initial (str "T1") (str "a") (str "a-1")
            [⟨str "first", str "bob", 5⟩] 10).2
          (str "T1") (str "b") (str "b-9") [⟨str "second", str "eve", 7⟩] 20).2.taskOrigins).Nodup :=
  ⟨(c8_linkTask_last_write_wins EngineState.initial (str "T1") (str "a") (str "a-1")
      (str "b") (str "b-9") [⟨str "first", str "bob", 5⟩]
      [⟨str "second", str "eve", 7⟩] 10 20).1,
   (c8_linkTask_last_write_wins EngineState.initial (str "T1") (str "a") (str "a-1")
      (str "b") (str "b-9") [⟨str "first", str "bob", 5⟩]
      [⟨str "second", str "eve", 7⟩] 10 20).2 (by decide)⟩

/-- Claim C10: `clearChannelContext(channelId)` removes exactly that channel's
thread list, entity map, decision log and attention cache; the task origins,
project memories and the global confidence trail are untouched, and every
other channel's entries in the four per-channel containers are unchanged. -/
theorem c10_clearChannelContext_frame (s : EngineState) (channelId : Str) :
    mapGet (clearChannelContext s channelId).threads channelId = none
    ∧ mapGet (clearChannelContext s channelId).entityMaps channelId = none
    ∧ mapGet (clearChannelContext s channelId).decisions channelId = none
    ∧ mapGet (clearChannelContext s channelId).attentionCache channelId = none
    ∧ (clearChannelContext s channelId).taskOrigins = s.taskOrigins
    ∧ (clearChannelContext s channelId).projectMemory = s.projectMemory
    ∧ (clearChannelContext s channelId).confidenceTrail = s.confidenceTrail
    ∧ ∀ (other : Str), other ≠ channelId →
        mapGet (clearChannelContext s channelId).threads other = mapGet s.threads other
        ∧ mapGet (clearChannelContext s channelId).entityMaps other
            = mapGet s.entityMaps other
        ∧ mapGet (clearChannelContext s channelId).decisions other
            = mapGet s.decisions other
        ∧ mapGet (clearChannelContext s channelId).attentionCache other
            = mapGet s.attentionCache other :=
  ⟨mapGet_delete_self _ _, mapGet_delete_self _ _, mapGet_delete_self _ _,
   mapGet_delete_self _ _, rfl, rfl, rfl,
   fun _ h =>
    ⟨mapGet_delete_ne _ _ _ h, mapGet_delete_ne _ _ _ h,
     mapGet_delete_ne _ _ _ h, mapGet_delete_ne _ _ _ h⟩⟩

/-- Witness for C10 at concrete inputs: clearing channel "a" in a two-channel
state leaves channel "b"'s threads untouched. -/
theorem c10_clearChannelContext_frame_witness :
    mapGet (clearChannelContext
        { EngineState.initial with
          threads := [(str "a", [Thread.init (str "a-1") (str "a") none 0]),
                      (str "b", [Thread.init (str "b-1") (str "b") none 0])] }
        (str "a")).threads (str "b")
      = mapGet
        ({ EngineState.initial with
          threads := [(str "a", [Thread.init (str "a-1") (str "a") none 0]),
                      (str "b", [Thread.init (str "b-1") (str "b") none 0])] }
          : EngineState).threads (str "b") :=
  ((c10_clearChannelContext_frame
      { EngineState.initial with
        threads := [(str "a", [Thread.init (str "a-1") (str "a") none 0]),
                    (str "b", [Thread.init (str "b-1") (str "b") none 0])] }
      (str "a")).2.2.2.2.2.2.2 (str "b") (by decide)).1

theorem mapGet_append_singleton_ne {K V : Type} [DecidableEq K]
    (l : List (K × V)) (k k' : K) (v : V) (h : k' ≠ k) :
    mapGet (l ++ [(k, v)]) k' = mapGet l k' := by
  induction l with
  | nil => simp [mapGet, List.find?, Ne.symm h]
  | cons e rest ih =>
    by_cases he : e.1 = k'
    · simp [mapGet, List.find?, he]
    · simp only [mapGet, List.cons_append, List.find?] at ih ⊢
      rw [show (decide (e.1 = k')) = false by simpa using he]
      exact ih

theorem mem_mapKeys_set_self {K V : Type} [DecidableEq K]
    (m : List (K × V)) (k : K) (v : V) : k ∈ mapKeys (mapSet m k v) := by
  rw [mapKeys_set]
  split
  · assumption
  · exact List.mem_append_right _ (by simp)

theorem mem_mapKeys_set_mono {K V : Type} [DecidableEq K]
    (m : List (K × V)) (k a : K) (v : V) (h : a ∈ mapKeys m) :
    a ∈ mapKeys (mapSet m k v) := by
  rw [mapKeys_set]
  split
  · exact h
  · exact List.mem_append_left _ h

theorem countP_fst_eq_one {K V : Type} [DecidableEq K] (l : List (K × V)) (k : K)
    (hnd : (mapKeys l).Nodup) (hmem : k ∈ mapKeys l) :
    l.countP (fun e => decide (e.1 = k)) = 1 := by
  induction l with
  | nil => simp [mapKeys] at hmem
  | cons e rest ih =>
    simp only [mapKeys, List.map_cons, List.nodup_cons] at hnd
    rw [List.countP_cons]
    by_cases he : e.1 = k
    · have hzero : rest.countP (fun e => decide (e.1 = k)) = 0 := by
        rw [List.countP_eq_zero]
        intro a ha hak
        apply hnd.1
        rw [he, ← of_decide_eq_true hak]
        exact List.mem_map_of_mem Prod.fst ha
      simp [hzero, he]
    · have hmem' : k ∈ mapKeys rest := by
        simp only [mapKeys, List.map_cons, List.mem_cons] at hmem
        rcases hmem with h1 | h2
        · exact absurd h1.symm he
        · exact h2
      rw [ih hnd.2 hmem']
      simp [he]

theorem channels_foldl_const {β : Type} (f : ProjectMemory → β → ProjectMemory)
    (hf : ∀ p b, (f p b).channels = p.channels) (l : List β) (p : ProjectMemory) :
    (l.foldl f p).channels = p.channels := by
  induction l generalizing p with
  | nil => rfl
  | cons b rest ih => rw [List.foldl_cons, ih, hf]

theorem syncPersonStep_channels (channelId : Str) (p : ProjectMemory)
    (e : Str × PersonData) : (syncPersonStep channelId p e).channels = p.channels := rfl

theorem syncTaskStep_channels (channelId : Str) (now : Nat) (p : ProjectMemory)
    (e : Str × TaskData) : (syncTaskStep channelId now p e).channels = p.channels := by
  unfold syncTaskStep
  dsimp only
  cases e.2.taskId with
  | none => rfl
  | some tid =>
    dsimp only
    split
    · rfl
    · rfl

theorem syncFeatureStep_channels (channelId : Str) (p : ProjectMemory)
    (e : Str × FeatureData) : (syncFeatureStep channelId p e).channels = p.channels := rfl

theorem sync_get_self (pm : List (Str × ProjectMemory)) (p ch : Str)
    (em : EntityMap) (now : Nat) :
    ∃ pr, mapGet (syncChannelToProject pm p ch em now) p = some pr ∧
      pr.channels = mapSet
        (match mapGet pm p with
          | some q => q.channels
          | none => [])
        ch { name := ch, purpose := none, registeredAt := now } := by
  unfold syncChannelToProject
  dsimp only
  cases hq : mapGet pm p with
  | some q =>
    simp only [getProjectMemory, hq]
    refine ⟨_, mapGet_set_self _ _ _, ?_⟩
    show (em.features.foldl (syncFeatureStep ch)
        (em.tasks.foldl (syncTaskStep ch now)
          (em.people.foldl (syncPersonStep ch)
            (q.registerChannel ch none none now)))).channels = _
    rw [channels_foldl_const _ (syncFeatureStep_channels ch),
      channels_foldl_const _ (syncTaskStep_channels ch now),
      channels_foldl_const _ (syncPersonStep_channels ch)]
    rfl
  | none =>
    simp only [getProjectMemory, hq]
    refine ⟨_, mapGet_set_self _ _ _, ?_⟩
    show (em.features.foldl (syncFeatureStep ch)
        (em.tasks.foldl (syncTaskStep ch now)
          (em.people.foldl (syncPersonStep ch)
            ((ProjectMemory.init p now).registerChannel ch none none now)))).channels = _
    rw [channels_foldl_const _ (syncFeatureStep_channels ch),
      channels_foldl_const _ (syncTaskStep_channels ch now),
      channels_foldl_const _ (syncPersonStep_channels ch)]
    rfl

theorem sync_get_ne (pm : List (Str × ProjectMemory)) (p ch : Str)
    (em : EntityMap) (now : Nat) (p' : Str) (h : p' ≠ p) :
    mapGet (syncChannelToProject pm p ch em now) p' = mapGet pm p' := by
  unfold syncChannelToProject
  dsimp only
  cases hq : mapGet pm p with
  | some q =>
    simp only [getProjectMemory, hq]
    exact mapGet_set_ne _ _ _ _ h
  | none =>
    simp only [getProjectMemory, hq]
    rw [mapGet_set_ne _ _ _ _ h]
    exact mapGet_append_singleton_ne _ _ _ _ h

theorem sync_nodup (pm : List (Str × ProjectMemory)) (p ch : Str)
    (em : EntityMap) (now : Nat)
    (h : ∀ p' pr, mapGet pm p' = some pr → (mapKeys pr.channels).Nodup) :
    ∀ p' pr, mapGet (syncChannelToProject pm p ch em now) p' = some pr →
      (mapKeys pr.channels).Nodup := by
  intro p' pr hget
  by_cases hp : p' = p
  · subst hp
    obtain ⟨pr', hget', hch⟩ := sync_get_self pm p' ch em now
    rw [hget'] at hget
    cases hget
    rw [hch]
    cases hq : mapGet pm p' with
    | some q => exact mapKeys_set_nodup _ _ _ (h p' q hq)
    | none => exact mapKeys_set_nodup _ _ _ (by simp [mapKeys])
  · rw [sync_get_ne _ _ _ _ _ _ hp] at hget
    exact h p' pr hget

theorem sync_mem_self (pm : List (Str × ProjectMemory)) (p ch : Str)
    (em : EntityMap) (now : Nat) :
    ∃ pr, mapGet (syncChannelToProject pm p ch em now) p = some pr
      ∧ ch ∈ mapKeys pr.channels := by
  obtain ⟨pr, hget, hch⟩ := sync_get_self pm p ch em now
  refine ⟨pr, hget, ?_⟩
  rw [hch]
  exact mem_mapKeys_set_self _ _ _

theorem sync_mem_mono (pm : List (Str × ProjectMemory)) (p ch : Str)
    (em : EntityMap) (now : Nat) (p0 ch0 : Str)
    (h : ∃ pr, mapGet pm p0 = some pr ∧ ch0 ∈ mapKeys pr.channels) :
    ∃ pr, mapGet (syncChannelToProject pm p ch em now) p0 = some pr
      ∧ ch0 ∈ mapKeys pr.channels := by
  obtain ⟨pr0, hget0, hmem0⟩ := h
  by_cases hp : p0 = p
  · subst hp
    obtain ⟨pr, hget, hch⟩ := sync_get_self pm p0 ch em now
    refine ⟨pr, hget, ?_⟩
    rw [hch, hget0]
    exact mem_mapKeys_set_mono _ _ _ _ hmem0
  · exact ⟨pr0, by rw [sync_get_ne _ _ _ _ _ _ hp]; exact hget0, hmem0⟩

theorem applySyncOps_nodup (ops : List SyncOp) (pm : List (Str × ProjectMemory))
    (h : ∀ p' pr, mapGet pm p' = some pr → (mapKeys pr.channels).Nodup) :
    ∀ p' pr, mapGet (applySyncOps pm ops) p' = some pr → (mapKeys pr.channels).Nodup := by
  induction ops generalizing pm with
  | nil => exact h
  | cons op rest ih =>
    exact ih _ (sync_nodup pm op.projectName op.channelId op.em op.now h)

theorem applySyncOps_mem (ops : List SyncOp) (pm : List (Str × ProjectMemory))
    (p ch : Str)
    (h : (∃ op ∈ ops, op.projectName = p ∧ op.channelId = ch)
      ∨ (∃ pr, mapGet pm p = some pr ∧ ch ∈ mapKeys pr.channels)) :
    ∃ pr, mapGet (applySyncOps pm ops) p = some pr ∧ ch ∈ mapKeys pr.channels := by
  induction ops generalizing pm with
  | nil =>
    rcases h with ⟨op, hop, _⟩ | h2
    · cases hop
    · exact h2
  | cons op rest ih =>
    rcases h with ⟨op0, hop0, hp0, hc0⟩ | h2
    · rcases List.mem_cons.mp hop0 with rfl | hmemrest
      · apply ih
        right
        rw [← hp0, ← hc0]
        exact sync_mem_self pm op0.projectName op0.channelId op0.em op0.now
      · apply ih
        left
        exact ⟨op0, hmemrest, hp0, hc0⟩
    · apply ih
      right
      exact sync_mem_mono pm op.projectName op.channelId op.em op.now p ch h2

/-- Claim C9: starting from the empty project store, after any sequence of
`syncChannelToProject` calls containing at least one sync of channel `ch` to
project `p` (in any interleaving with other syncs), the channels list reported
by `getCrossChannelContext` for `p` contains `ch` exactly once. -/
theorem c9_sync_registers_once (ops : List SyncOp) (p ch : Str)
    (h : ∃ op ∈ ops, op.projectName = p ∧ op.channelId = ch) :
    ((getCrossChannelContext (applySyncOps [] ops) p 0).channels.countP
      (fun e => decide (e.1 = ch))) = 1 := by
  obtain ⟨pr, hget, hmem⟩ := applySyncOps_mem ops [] p ch (Or.inl h)
  have hnd : (mapKeys pr.channels).Nodup :=
    applySyncOps_nodup ops [] (by intro p' pr' hget'; simp [mapGet] at hget') p pr hget
  have hch : (getCrossChannelContext (applySyncOps [] ops) p 0).channels = pr.channels := by
    simp [getCrossChannelContext, getProjectMemory, hget]
  rw [hch]
  exact countP_fst_eq_one _ _ hnd hmem

/-- Witness for C9 at concrete inputs: syncing channel "a" to project "P"
twice, with a sync of channel "b" interleaved, reports "a" exactly once. -/
theorem c9_sync_registers_once_witness :
    ((getCrossChannelContext
        (applySyncOps []
          [⟨str "P", str "a", EntityMap.init (str "a") 0, 1⟩,
           ⟨str "P", str "b", EntityMap.init (str "b") 0, 2⟩,
           ⟨str "P", str "a", EntityMap.init (str "a") 0, 3⟩])
        (str "P") 0).channels.countP
      (fun e => decide (e.1 = str "a"))) = 1 :=
  c9_sync_registers_once
    [⟨str "P", str "a", EntityMap.init (str "a") 0, 1⟩,
     ⟨str "P", str "b", EntityMap.init (str "b") 0, 2⟩,
     ⟨str "P", str "a", EntityMap.init (str "a") 0, 3⟩]
    (str "P") (str "a")
    ⟨⟨str "P", str "a", EntityMap.init (str "a") 0, 1⟩, by simp, rfl, rfl⟩

theorem hours_gt24_iff (now last : Nat) :
    (24 : ℚ) < ((now : ℚ) - (last : ℚ)) / (1000 * 60 * 60) ↔ last + 86400000 < now := by
  rw [lt_div_iff₀ (by norm_num : (0 : ℚ) < 1000 * 60 * 60)]
  constructor
  · intro h
    have h2 : (last : ℚ) + 86400000 < (now : ℚ) := by linarith
    exact_mod_cast h2
  · intro h
    have h2 : (last : ℚ) + 86400000 < (now : ℚ) := by exact_mod_cast h
    linarith

theorem value_eq_of_nodup_keys {K V : Type} (l : List (K × V)) (k : K) (v1 v2 : V)
    (hnd : (mapKeys l).Nodup) (h1 : (k, v1) ∈ l) (h2 : (k, v2) ∈ l) : v1 = v2 := by
  induction l with
  | nil => cases h1
  | cons e rest ih =>
    simp only [mapKeys, List.map_cons, List.nodup_cons] at hnd
    rcases List.mem_cons.mp h1 with he1 | hm1
    · rcases List.mem_cons.mp h2 with he2 | hm2
      · rw [← he1] at he2
        injection he2 with _ hv
        exact hv.symm
      · exfalso
        apply hnd.1
        rw [← he1]
        simpa using List.mem_map_of_mem Prod.fst hm2
    · rcases List.mem_cons.mp h2 with he2 | hm2
      · exfalso
        apply hnd.1
        rw [← he2]
        simpa using List.mem_map_of_mem Prod.fst hm1
      · exact ih hnd.2 hm1 hm2

theorem staleAlertFor_some_inv (threads : List (Str × List Thread)) (now : Nat)
    (e : Str × TaskData) (a : StaleAlert)
    (h : staleAlertFor threads now e = some a) :
    ∃ thread, getThreadByTaskId threads e.2.taskId = some thread
      ∧ (24 : ℚ) < ((now : ℚ) - (thread.lastActivityAt : ℚ)) / (1000 * 60 * 60)
      ∧ a.task = e.1 := by
  unfold staleAlertFor at h
  split at h
  · cases hth : getThreadByTaskId threads e.2.taskId with
    | some thread =>
      rw [hth] at h
      dsimp only at h
      split at h
      · refine ⟨thread, rfl, by assumption, ?_⟩
        cases h
        rfl
      · exact Option.noConfusion h
    | none =>
      rw [hth] at h
      exact Option.noConfusion h
  · exact Option.noConfusion h

/-- Claim C5: `analyzeTemporalPatterns` raises a staleness alert for exactly
the task-map entries with status "mentioned" or "in_progress" whose carrying
thread (looked up by the entry's task id) was last active more than 24 hours
before now, reporting the hours rounded to the nearest whole hour and the last
message's author; an entry whose thread was active within the last 24 hours
produces no alert carrying its task name. -/
theorem c5_staleness (s : EngineState) (channelId : Str) (now : Nat)
    (hnd : (mapKeys ((mapGet s.entityMaps channelId).getD
        (EntityMap.init channelId now)).tasks).Nodup) :
    ∀ (taskName : Str) (data : TaskData),
      (taskName, data) ∈ ((mapGet s.entityMaps channelId).getD
          (EntityMap.init channelId now)).tasks →
      ((∀ thread : Thread,
          (data.status = some (str "mentioned") ∨ data.status = some (str "in_progress")) →
          getThreadByTaskId s.threads data.taskId = some thread →
          thread.lastActivityAt + 86400000 < now →
          ({ task := taskName,
             hoursSinceActivity := jsRound (((now : ℚ) - (thread.lastActivityAt : ℚ))
               / (1000 * 60 * 60)),
             lastMentionedBy := (thread.messages.getLast?).map (fun m => m.username) }
            : StaleAlert) ∈ (analyzeTemporalPatterns s channelId now).stalenessAlerts)
        ∧ (∀ thread : Thread,
            getThreadByTaskId s.threads data.taskId = some thread →
            now ≤ thread.lastActivityAt + 86400000 →
            ∀ a ∈ (analyzeTemporalPatterns s channelId now).stalenessAlerts,
              a.task ≠ taskName)) := by
  have halerts : (analyzeTemporalPatterns s channelId now).stalenessAlerts =
      ((mapGet s.entityMaps channelId).getD
        (EntityMap.init channelId now)).tasks.filterMap (staleAlertFor s.threads now) := rfl
  intro taskName data hmem
  constructor
  · intro thread hstat hth hlt
    rw [halerts]
    apply List.mem_filterMap.mpr
    refine ⟨(taskName, data), hmem, ?_⟩
    have hsome : staleAlertFor s.threads now (taskName, data) = some
        ({ task := taskName,
           hoursSinceActivity := jsRound (((now : ℚ) - (thread.lastActivityAt : ℚ))
             / (1000 * 60 * 60)),
           lastMentionedBy := (thread.messages.getLast?).map (fun m => m.username) }
          : StaleAlert) := by
      unfold staleAlertFor
      dsimp only
      rw [if_pos hstat, hth]
      dsimp only
      rw [if_pos ((hours_gt24_iff now thread.lastActivityAt).mpr hlt)]
    exact hsome
  · intro thread hth hle a ha hatask
    rw [halerts] at ha
    obtain ⟨e, hemem, hesome⟩ := List.mem_filterMap.mp ha
    obtain ⟨thread', hth', hcond, htask⟩ := staleAlertFor_some_inv _ _ _ _ hesome
    have he1 : e.1 = taskName := by rw [← htask, hatask]
    have hpair : (taskName, e.2) ∈ ((mapGet s.entityMaps channelId).getD
        (EntityMap.init channelId now)).tasks := by
      rw [← he1]
      simpa using hemem
    have hdata : e.2 = data := value_eq_of_nodup_keys _ _ _ _ hnd hpair hmem
    rw [hdata, hth] at hth'
    cases hth'
    have := (hours_gt24_iff now thread.lastActivityAt).mp hcond
    omega

/-- Witness for C5 at concrete inputs: one "mentioned" task whose thread was
last active 25 hours ago (at time 0, now = 90000000 ms) produces the alert
with 25 rounded hours and the last author "bob". -/
theorem c5_staleness_witness :
    ({ task := str "t1",
       hoursSinceActivity := jsRound (((90000000 : ℚ) - ((0 : Nat) : ℚ))
         / (1000 * 60 * 60)),
       lastMentionedBy := some (str "bob") } : StaleAlert)
      ∈ (analyzeTemporalPatterns
          { EngineState.initial with
            threads := [(str "c",
              [{ id := str "c-1", channelId := str "c", topic := none,
                 messages := [⟨str "m1", str "hello", str "bob", 0, none⟩],
                 entities := [], taskCreated := true, taskId := some (str "T1"),
                 startedAt := 0, lastActivityAt := 0, isActive := true }])],
            entityMaps := [(str "c",
              { channelId := str "c",
                people := [], features := [], concepts := [],
                tasks := [(str "t1",
                  { mentions := 1, taskId := some (str "T1"),
                    status := some (str "mentioned") })],
                focusStack := [], lastUpdated := 0 })] }
          (str "c") 90000000).stalenessAlerts :=
  ((c5_staleness
      { EngineState.initial with
        threads := [(str "c",
          [{ id := str "c-1", channelId := str "c", topic := none,
             messages := [⟨str "m1", str "hello", str "bob", 0, none⟩],
             entities := [], taskCreated := true, taskId := some (str "T1"),
             startedAt := 0, lastActivityAt := 0, isActive := true }])],
        entityMaps := [(str "c",
          { channelId := str "c",
            people := [], features := [], concepts := [],
            tasks := [(str "t1",
              { mentions := 1, taskId := some (str "T1"),
                status := some (str "mentioned") })],
            focusStack := [], lastUpdated := 0 })] }
      (str "c") 90000000 (by decide)
      (str "t1")
      { mentions := 1, taskId := some (str "T1"), status := some (str "mentioned") }
      (by decide)).1
    { id := str "c-1", channelId := str "c", topic := none,
      messages := [⟨str "m1", str "hello", str "bob", 0, none⟩],
      entities := [], taskCreated := true, taskId := some (str "T1"),
      startedAt := 0, lastActivityAt := 0, isActive := true }
    (Or.inl rfl) rfl (by decide))

end ContextEngine
